import Mathlib

/-!
# Marquette annotation editor: a shallow embedding

Definitions translated from `marquette.py` and `p4.py`: the box data model,
the Qt rectangle geometry the code relies on, the command-based undo stack,
the page-view editing operations, and the save path that turns text boxes
into persisted annotations.  Machine integers are modelled as `Int` (Python
integers are unbounded), pixel-to-document coordinates as `ℚ` (the zoom
factors and rectangle corners involved divide exactly), and Python
exceptions as `Option` (with `none` for an uncaught exception).
-/

/-! ## List and string helpers mirroring Python built-ins -/

/-- Python `list.insert(i, a)`: clamps the index into `[0, len]`. -/
def pyInsert {α : Type} (i : Nat) (a : α) (l : List α) : List α :=
  l.take i ++ a :: l.drop i

/-- Python `list.remove(a)`: drops the first occurrence of `a` (total here;
every call site in the source guards membership first, and removing from a
list without the element leaves it unchanged in this model). -/
def pyRemove (a : Nat) : List Nat → List Nat
  | [] => []
  | b :: rest => if b = a then rest else b :: pyRemove a rest

/-- Python `list.index(a)`: position of the first occurrence of `a`. -/
def pyIndex (a : Nat) : List Nat → Nat
  | [] => 0
  | b :: rest => if b = a then 0 else pyIndex a rest + 1

/-- The whitespace characters Python's `str.strip()` removes (ASCII part;
the texts in play are ASCII). -/
def isPySpace (c : Char) : Bool :=
  c = ' ' || c = '\t' || c = '\n' || c = '\r' || c = '\x0b' || c = '\x0c'

/-- Python `str.strip()`. -/
def pyStrip (s : String) : String :=
  ⟨((s.toList.dropWhile isPySpace).reverse.dropWhile isPySpace).reverse⟩

/-- Does the character list start with `n`? -/
def startsWithChars : List Char → List Char → Bool
  | [], _ => true
  | _ :: _, [] => false
  | a :: as, b :: bs => a = b && startsWithChars as bs

/-- Python `n in h` on strings, over char lists: `n` occurs contiguously. -/
def containsChars (n : List Char) : List Char → Bool
  | [] => startsWithChars n []
  | b :: bs => startsWithChars n (b :: bs) || containsChars n bs

/-- Python `str.lower()` (ASCII). -/
def lowerChars (s : String) : List Char := s.toList.map Char.toLower

/-! ## Qt geometry (`QRect`, Qt 6 semantics)

A `QRect` stores `x`, `y`, `width`, `height`; its `right()` is
`x + width - 1` and `bottom()` is `y + height - 1` (documented Qt
behaviour the source leans on in `px_rect_to_pdf_rect`). -/

structure Rect where
  x : Int
  y : Int
  w : Int
  h : Int
deriving DecidableEq, Repr

def Rect.left (r : Rect) : Int := r.x

def Rect.top (r : Rect) : Int := r.y

def Rect.right (r : Rect) : Int := r.x + r.w - 1

def Rect.bottom (r : Rect) : Int := r.y + r.h - 1

/-- `QRect(QPoint(x0, y0), QPoint(x1, y1))`: width `x1 - x0 + 1`,
height `y1 - y0 + 1`. -/
def Rect.fromPoints (x0 y0 x1 y1 : Int) : Rect :=
  ⟨x0, y0, x1 - x0 + 1, y1 - y0 + 1⟩

/-- `QRect::normalized()` (Qt 6): a negative width or height is flipped
around the corners; zero sizes are kept. -/
def Rect.normalized (r : Rect) : Rect :=
  let r1 := if r.w < 0 then { r with x := r.x + r.w, w := -r.w } else r
  if r1.h < 0 then { r1 with y := r1.y + r1.h, h := -r1.h } else r1

/-! ## Font mapping (`qfont_to_pdf_basefont`) -/

def monoKeywords : List String :=
  ["courier", "consolas", "mono", "dejavu sans mono", "liberation mono"]

def serifKeywords : List String :=
  ["times", "serif", "dejavu serif", "liberation serif"]

/-- `qfont_to_pdf_basefont`: lowercase the family name and pick one of the
base-14 identifiers `"cour"` (Courier), `"tiro"` (Times), `"helv"`
(Helvetica) by substring matching, monospace keywords checked first. -/
def qfont_to_pdf_basefont (family : String) : String :=
  let fam := lowerChars family
  if monoKeywords.any (fun k => containsChars k.toList fam) then "cour"
  else if serifKeywords.any (fun k => containsChars k.toList fam) then "tiro"
  else "helv"

/-- The three portable font classes of the specification. -/
inductive PortableFont
  | monospace
  | serif
  | sansSerif
deriving DecidableEq, Repr

/-- Reading of the base-14 identifiers as portable classes: Courier is the
monospace base font, Times the serif one, Helvetica the sans-serif one. -/
def basefont_to_portable (s : String) : Option PortableFont :=
  if s = "cour" then some PortableFont.monospace
  else if s = "tiro" then some PortableFont.serif
  else if s = "helv" then some PortableFont.sansSerif
  else none

/-- Modelled from the spec: the font-family classification of §4.5 —
monospace on any of {"courier", "consolas", "mono"}, else serif on any of
{"times", "serif"}, else sans-serif, case-insensitively on substrings. -/
def spec_font_class (family : String) : PortableFont :=
  let fam := lowerChars family
  if ["courier", "consolas", "mono"].any (fun k => containsChars k.toList fam) then
    PortableFont.monospace
  else if ["times", "serif"].any (fun k => containsChars k.toList fam) then
    PortableFont.serif
  else PortableFont.sansSerif

/-! ## Pixel-to-document transform (`px_rect_to_pdf_rect`) -/

structure PdfRect where
  x0 : ℚ
  y0 : ℚ
  x1 : ℚ
  y1 : ℚ
deriving DecidableEq, Repr

/-- `PageView.px_rect_to_pdf_rect`: divide the `QRect` corner coordinates
(`left`, `top`, `right`, `bottom`) by the zoom factor. -/
def px_rect_to_pdf_rect (zoom : ℚ) (r : Rect) : PdfRect :=
  ⟨(r.left : ℚ) / zoom, (r.top : ℚ) / zoom, (r.right : ℚ) / zoom, (r.bottom : ℚ) / zoom⟩

/-! ## Committed geometry (`_create_box`, `mouseMoveEvent` clamps) -/

def MIN_W : Int := 60

def MIN_H : Int := 28

def default_click_w : Int := 360

def default_click_h : Int := 30

/-- The small-drag ("click") branch of `PageView._create_box`, identical to
`PageView.add_box_at_click` of `p4.py`: default-size box anchored at the
click, vertically centred, `y` clamped, width budgeted against the right
page edge, rejected (`none`) below 40 px. -/
def click_create_rect (W H x y : Int) : Option Rect :=
  let y1 := max 0 (min (y - default_click_h / 2) (H - default_click_h))
  let w := min default_click_w (W - x)
  if w < 40 then none else some ⟨x, y1, w, default_click_h⟩

/-- The drag branch of `PageView._create_box`: corners clamped into the
page, the rectangle re-normalized, minimum size applied, then width and
height budgets cut against the page edges. -/
def drag_create_rect (W H : Int) (r : Rect) : Rect :=
  let x0 := max 0 (min r.left (W - 1))
  let y0 := max 0 (min r.top (H - 1))
  let x1 := max 0 (min r.right (W - 1))
  let y1 := max 0 (min r.bottom (H - 1))
  let r2 := (Rect.fromPoints x0 y0 x1 y1).normalized
  let w := max MIN_W r2.w
  let h := max MIN_H r2.h
  let w := min w (W - r2.x)
  let h := min h (H - r2.y)
  ⟨r2.x, r2.y, w, h⟩

/-- `PageView._create_box`'s rectangle normalization: `none` means the
creation is rejected (no box, no command). -/
def create_box_rect (W H : Int) (rect : Rect) (treatAsDragRect : Bool) : Option Rect :=
  if treatAsDragRect then
    let r := rect.normalized
    if r.w < 40 ∧ r.h < 20 then click_create_rect W H r.x r.y
    else some (drag_create_rect W H r)
  else some rect

/-- The move clamp of `TextBoxWidget.mouseMoveEvent`: the proposed position
is clamped so the (unchanged) `bw × bh` box stays inside the `W × H`
parent. -/
def move_clamp (W H bw bh px py : Int) : Int × Int :=
  (max 0 (min px (W - bw)), max 0 (min py (H - bh)))

/-- The resize clamp of `TextBoxWidget.mouseMoveEvent`: minimum size first,
then the width/height budget from the gesture-start anchor `(sx, sy)`. -/
def resize_clamp (W H sx sy sw sh dx dy : Int) : Int × Int :=
  (min (max MIN_W (sw + dx)) (W - sx), min (max MIN_H (sh + dy)) (H - sy))

/-! ## Data model (`BoxModel`) and live widget state -/

/-- `BoxModel`: one text box — page, pixel rectangle, committed text, font
family (the part of the `QFont` the program reads) and point size. -/
structure BoxModel where
  page_index : Int
  rect_px : Rect
  text : String
  family : String
  fontsize_pt : Int
deriving DecidableEq, Repr

/-- One `TextBoxWidget`: its committed model plus the live widget state the
code also reads — the `QLineEdit` text, the widget geometry, visibility. -/
structure BoxObj where
  model : BoxModel
  editText : String
  geom : Rect
  visible : Bool
deriving DecidableEq, Repr

def defaultObj : BoxObj :=
  ⟨⟨0, ⟨0, 0, 0, 0⟩, "", "", 0⟩, "", ⟨0, 0, 0, 0⟩, false⟩

/-- Widgets persist as Python objects even when removed from the collection,
so the widget store maps ids to widgets and is only ever appended to.
`getObj` reads the first binding of an id. -/
def getObj : List (Nat × BoxObj) → Nat → BoxObj
  | [], _ => defaultObj
  | (i, b) :: rest, id => if i = id then b else getObj rest id

/-- Mutate the widget bound to `id` in place (first binding). -/
def modObj (id : Nat) (f : BoxObj → BoxObj) : List (Nat × BoxObj) → List (Nat × BoxObj)
  | [] => []
  | (i, b) :: rest => if i = id then (i, f b) :: rest else (i, b) :: modObj id f rest

/-- Is some widget bound to `id`? -/
def hasKey : List (Nat × BoxObj) → Nat → Bool
  | [], _ => false
  | (i, _) :: rest, id => i = id || hasKey rest id

/-! ## Commands and the page-view state

A `Command` in the source is a pair of closures.  Each call site captures
either a widget (by identity — an id here) together with before/after
model snapshots, or, for the font command, the page view itself, whose
`selected` field the closures dereference at execution time. -/

inductive Cmd
  | addBox (id : Nat)
  | update (id : Nat) (before after : BoxModel)
  | delete (id : Nat) (idx : Nat) (before : BoxModel)
  | changeFont (before after : BoxModel)
deriving DecidableEq, Repr

/-- `PageView` state: widget store, the box collection (ids, z-order), the
selection, the rendered page (index, pixel size, zoom), current font
defaults, a fresh-id counter, and the two `UndoStack` lists (head = top). -/
structure PVState where
  store : List (Nat × BoxObj)
  boxes : List Nat
  selected : Option Nat
  pageIndex : Int
  imageW : Int
  imageH : Int
  zoom : ℚ
  currentFamily : String
  currentFontsize : Int
  nextId : Nat
  undoS : List Cmd
  redoS : List Cmd
deriving DecidableEq, Repr

/-- `TextBoxWidget.set_model`: replace the model, reset the edit text and
the widget geometry from it. -/
def setModelSt (id : Nat) (m : BoxModel) (s : PVState) : PVState :=
  let f := fun (b : BoxObj) => { b with model := m, editText := m.text, geom := m.rect_px }
  { s with store := modObj id f s.store }

/-- Execute a command's `do` closure.  `none` models an uncaught Python
exception: the font closures dereference `self.selected`, which raises
`AttributeError` when nothing is selected. -/
def cmdDo : Cmd → PVState → Option PVState
  | Cmd.addBox id, s =>
      some { s with
        boxes := s.boxes ++ [id],
        store := modObj id (fun b => { b with visible := true }) s.store,
        selected := some id }
  | Cmd.update id _ after, s => some (setModelSt id after s)
  | Cmd.delete id _ _, s =>
      some { s with
        boxes := pyRemove id s.boxes,
        store := modObj id (fun b => { b with visible := false }) s.store,
        selected := if s.selected = some id then none else s.selected }
  | Cmd.changeFont _ after, s =>
      match s.selected with
      | none => none
      | some sid => some (setModelSt sid after s)

/-- Execute a command's `undo` closure. -/
def cmdUndo : Cmd → PVState → Option PVState
  | Cmd.addBox id, s =>
      some { s with
        boxes := pyRemove id s.boxes,
        store := modObj id (fun b => { b with visible := false }) s.store,
        selected := if s.selected = some id then none else s.selected }
  | Cmd.update id before _, s => some (setModelSt id before s)
  | Cmd.delete id idx before, s =>
      some { s with
        boxes := pyInsert idx id s.boxes,
        store := modObj id
          (fun b => { b with model := before, editText := before.text,
                             geom := before.rect_px, visible := true }) s.store }
  | Cmd.changeFont before _, s =>
      match s.selected with
      | none => none
      | some sid => some (setModelSt sid before s)

/-- `UndoStack.push_and_do`: run `do()`, append to the undo stack, clear the
redo stack.  An exception inside `do()` propagates before the push. -/
def pushAndDo (cmd : Cmd) (s : PVState) : Option PVState :=
  match cmdDo cmd s with
  | none => none
  | some s1 => some { s1 with undoS := cmd :: s1.undoS, redoS := [] }

/-- `UndoStack.undo`: no-op on an empty stack, otherwise pop, run the
command's `undo()`, push it onto the redo stack. -/
def stackUndo (s : PVState) : Option PVState :=
  match s.undoS with
  | [] => some s
  | cmd :: rest =>
      match cmdUndo cmd { s with undoS := rest } with
      | none => none
      | some s1 => some { s1 with redoS := cmd :: s1.redoS }

/-- `UndoStack.redo`. -/
def stackRedo (s : PVState) : Option PVState :=
  match s.redoS with
  | [] => some s
  | cmd :: rest =>
      match cmdDo cmd { s with redoS := rest } with
      | none => none
      | some s1 => some { s1 with undoS := cmd :: s1.undoS }

/-! ## Edit operations of `PageView` -/

/-- `PageView._create_box`: normalize the proposed rectangle (rejection is
a silent no-op), build the widget with empty text and the current font
defaults, and push the Add Box command (`do` = append + show + select;
`undo` = remove + hide + deselect). -/
def create_box (rect : Rect) (treatAsDragRect : Bool) (s : PVState) : Option PVState :=
  match create_box_rect s.imageW s.imageH rect treatAsDragRect with
  | none => some s
  | some r =>
      let model : BoxModel := ⟨s.pageIndex, r, "", s.currentFamily, s.currentFontsize⟩
      let id := s.nextId
      pushAndDo (Cmd.addBox id)
        { s with store := s.store ++ [(id, ⟨model, "", r, true⟩)], nextId := id + 1 }

/-- `PageView.set_font_settings`: record the new defaults; when a box is
selected, snapshot its model as `before`, assemble `after` from the live
widget state plus the new font, and push a Change Font command whose
closures dereference `self.selected` at execution time. -/
def set_font_settings (family : String) (fontsize : Int) (s : PVState) : Option PVState :=
  let s0 := { s with currentFamily := family, currentFontsize := fontsize }
  match s0.selected with
  | none => some s0
  | some sid =>
      let obj := getObj s0.store sid
      pushAndDo
        (Cmd.changeFont obj.model ⟨obj.model.page_index, obj.geom, obj.editText, family, fontsize⟩)
        s0

/-- `PageView._request_delete`: a box not in the collection is ignored;
otherwise push a Delete command recording the box's index and model. -/
def request_delete (id : Nat) (s : PVState) : Option PVState :=
  if id ∈ s.boxes then
    pushAndDo (Cmd.delete id (pyIndex id s.boxes) (getObj s.store id).model) s
  else some s

/-- `TextBoxWidget._on_editing_finished`: trimmed-empty text requests a
delete; text that differs from the committed text becomes an Update
command (the widget installs `after` before the commit callback runs);
unchanged text does nothing. -/
def editing_finished (id : Nat) (s : PVState) : Option PVState :=
  let obj := getObj s.store id
  let txt := pyStrip obj.editText
  if txt = "" then request_delete id s
  else if txt ≠ obj.model.text then
    let after : BoxModel :=
      ⟨obj.model.page_index, obj.geom, txt, obj.model.family, obj.model.fontsize_pt⟩
    pushAndDo (Cmd.update id obj.model after)
      { s with store := modObj id (fun b => { b with model := after }) s.store }
  else some s

/-- A text edit: type `t` into the box's `QLineEdit`, then commit
(`editingFinished`). -/
def retext (id : Nat) (t : String) (s : PVState) : Option PVState :=
  editing_finished id { s with store := modObj id (fun b => { b with editText := t }) s.store }

/-- `TextBoxWidget._commit_geom_change` after a completed move/resize
gesture left the widget at geometry `g`: snapshot before/after (text read
from the live edit), install `after` on the widget, push an Update
command. -/
def commit_geom_change (id : Nat) (g : Rect) (s : PVState) : Option PVState :=
  let obj := getObj s.store id
  let after : BoxModel :=
    ⟨obj.model.page_index, g, obj.editText, obj.model.family, obj.model.fontsize_pt⟩
  pushAndDo (Cmd.update id obj.model after)
    { s with store := modObj id (fun b => { b with model := after, geom := g }) s.store }

/-! ## Saving (`MainWindow.save_pdf`, `_style_freetext_plain`)

Opening and incrementally saving the document are external; what the core
emits is, per box with non-empty trimmed edit text, one free-text
annotation carrying the page index, the transformed rectangle and the
trimmed text, styled best-effort. -/

/-- One persisted annotation as `page.add_freetext_annot` receives it. -/
structure Annot where
  page : Int
  rect : PdfRect
  text : String
deriving DecidableEq, Repr

/-- The annotation `save_pdf` emits for one box. -/
def mkAnnot (zoom : ℚ) (b : BoxObj) : Annot :=
  ⟨b.model.page_index, px_rect_to_pdf_rect zoom b.model.rect_px, pyStrip b.editText⟩

/-- The `save_pdf` loop over the box collection: skip boxes whose trimmed
edit text is empty, emit one annotation for each of the others, in order. -/
def save_boxes (zoom : ℚ) (store : List (Nat × BoxObj)) : List Nat → List Annot
  | [] => []
  | id :: rest =>
      let b := getObj store id
      if pyStrip b.editText = "" then save_boxes zoom store rest
      else mkAnnot zoom b :: save_boxes zoom store rest

/-- `MainWindow.save_pdf` restricted to what it writes into the document. -/
def save_pdf (s : PVState) : List Annot :=
  save_boxes s.zoom s.store s.boxes

/-- Which of the five external style calls succeed for one annotation; a
`false` entry stands for the call raising inside its `try`/`except`. -/
structure StyleProfile where
  borderOk : Bool
  colorsOk : Bool
  opacityOk : Bool
  daOk : Bool
  updateOk : Bool
deriving DecidableEq, Repr

/-- An annotation together with the styling state the five calls set. -/
structure StyledAnnot where
  base : Annot
  borderWidth : Option Int
  colorsCleared : Bool
  opacity : Option Int
  da : Option (String × Int)
  updated : Bool
deriving DecidableEq, Repr

/-- A `try: call() except Exception: pass` around an external call: the
effect is applied when the call succeeds and silently skipped when it
raises. -/
def pyTry {α : Type} (ok : Bool) (f : α → α) (a : α) : α :=
  if ok then f a else a

/-- `MainWindow._style_freetext_plain`: five independently fallible style
calls — border width 0, no stroke/fill colors, opacity 1, the default
appearance (mapped base font, size, black), and `update()` — each wrapped
in its own `try`/`except`. -/
def style_freetext_plain (p : StyleProfile) (family : String) (fontsize : Int)
    (a : StyledAnnot) : StyledAnnot :=
  let a := pyTry p.borderOk (fun a => { a with borderWidth := some 0 }) a
  let a := pyTry p.colorsOk (fun a => { a with colorsCleared := true }) a
  let a := pyTry p.opacityOk (fun a => { a with opacity := some 1 }) a
  let a := pyTry p.daOk (fun a => { a with da := some (qfont_to_pdf_basefont family, fontsize) }) a
  pyTry p.updateOk (fun a => { a with updated := true }) a

/-- The `save_pdf` loop with styling, under an arbitrary per-box profile of
style-call failures. -/
def save_boxes_styled (prof : Nat → StyleProfile) (zoom : ℚ)
    (store : List (Nat × BoxObj)) : List Nat → List StyledAnnot
  | [] => []
  | id :: rest =>
      let b := getObj store id
      if pyStrip b.editText = "" then save_boxes_styled prof zoom store rest
      else
        style_freetext_plain (prof id) b.model.family b.model.fontsize_pt
            ⟨mkAnnot zoom b, none, false, none, none, false⟩ ::
          save_boxes_styled prof zoom store rest

/-- `MainWindow.save_pdf` including the best-effort styling of each emitted
annotation. -/
def save_pdf_styled (prof : Nat → StyleProfile) (s : PVState) : List StyledAnnot :=
  save_boxes_styled prof s.zoom s.store s.boxes

/-! ## Helper lemmas -/

theorem getObj_modObj_self (st : List (Nat × BoxObj)) (id : Nat) (f : BoxObj → BoxObj)
    (hk : hasKey st id = true) : getObj (modObj id f st) id = f (getObj st id) := by
  induction st with
  | nil => simp [hasKey] at hk
  | cons p rest ih =>
      obtain ⟨i, b⟩ := p
      by_cases hi : i = id
      · simp [modObj, getObj, hi]
      · simp [hasKey, hi] at hk
        simp [modObj, getObj, hi, ih hk]

theorem hasKey_modObj (st : List (Nat × BoxObj)) (id j : Nat) (f : BoxObj → BoxObj) :
    hasKey (modObj id f st) j = hasKey st j := by
  induction st with
  | nil => rfl
  | cons p rest ih =>
      obtain ⟨i, b⟩ := p
      by_cases hi : i = id <;> simp [modObj, hasKey, hi, ih]

theorem modObj_modObj (st : List (Nat × BoxObj)) (id : Nat) (f g : BoxObj → BoxObj) :
    modObj id f (modObj id g st) = modObj id (fun b => f (g b)) st := by
  induction st with
  | nil => rfl
  | cons p rest ih =>
      obtain ⟨i, b⟩ := p
      by_cases hi : i = id <;> simp [modObj, hi, ih]

theorem modObj_congr (st : List (Nat × BoxObj)) (id : Nat) (f g : BoxObj → BoxObj)
    (h : f (getObj st id) = g (getObj st id)) : modObj id f st = modObj id g st := by
  induction st with
  | nil => rfl
  | cons p rest ih =>
      obtain ⟨i, b⟩ := p
      by_cases hi : i = id
      · simp [getObj, hi] at h
        simp [modObj, hi, h]
      · simp [getObj, hi] at h
        simp [modObj, hi, ih h]

theorem not_mem_pyRemove_self (l : List Nat) (a : Nat) (hnd : l.Nodup) :
    a ∉ pyRemove a l := by
  induction l with
  | nil => simp [pyRemove]
  | cons b rest ih =>
      rw [List.nodup_cons] at hnd
      by_cases hb : b = a
      · subst hb
        simpa [pyRemove] using hnd.1
      · simp only [pyRemove, if_neg hb, List.mem_cons]
        rintro (h | h)
        · exact hb h.symm
        · exact ih hnd.2 h

theorem pyInsert_pyIndex_pyRemove (l : List Nat) (a : Nat) (h : a ∈ l) :
    pyInsert (pyIndex a l) a (pyRemove a l) = l := by
  induction l with
  | nil => cases h
  | cons b rest ih =>
      by_cases hb : b = a
      · subst hb
        simp [pyIndex, pyRemove, pyInsert]
      · have hmem : a ∈ rest := by
          rcases List.mem_cons.mp h with h1 | h1
          · exact absurd h1.symm hb
          · exact h1
        simp only [pyIndex, pyRemove, if_neg hb]
        simpa [pyInsert] using ih hmem

theorem startsWithChars_iff (n h : List Char) : startsWithChars n h = true ↔ n <+: h := by
  induction n generalizing h with
  | nil => simp [startsWithChars, List.nil_prefix]
  | cons a as ih =>
      cases h with
      | nil => simp [startsWithChars]
      | cons b bs => simp [startsWithChars, List.cons_prefix_cons, ih]

theorem containsChars_iff (n h : List Char) : containsChars n h = true ↔ n <:+: h := by
  induction h with
  | nil => simp [containsChars, startsWithChars_iff, List.infix_nil, List.prefix_nil]
  | cons b bs ih =>
      simp [containsChars, startsWithChars_iff, ih, List.infix_cons_iff]

theorem containsChars_trans {a b l : List Char} (h1 : containsChars a b = true)
    (h2 : containsChars b l = true) : containsChars a l = true :=
  (containsChars_iff a l).mpr
    (((containsChars_iff a b).mp h1).trans ((containsChars_iff b l).mp h2))

/-- Evaluating `_request_delete` on a member box: one Delete command is
pushed (recording the box's index and model), the box leaves the
collection and is hidden, the selection is cleared when it pointed at the
box, and the redo stack empties. -/
theorem request_delete_eval (s : PVState) (id : Nat) (hmem : id ∈ s.boxes) :
    request_delete id s = some
      { s with boxes := pyRemove id s.boxes,
               store := modObj id (fun b => { b with visible := false }) s.store,
               selected := if s.selected = some id then none else s.selected,
               undoS := Cmd.delete id (pyIndex id s.boxes) (getObj s.store id).model :: s.undoS,
               redoS := [] } := by
  simp [request_delete, hmem, pushAndDo, cmdDo]

/-- Evaluating `UndoStack.undo` when the top command is a Delete: the box
is reinserted at its recorded index and its recorded model is restored
onto the widget. -/
theorem stack_undo_delete_eval (s : PVState) (id idx : Nat) (m : BoxModel) (rest : List Cmd)
    (h : s.undoS = Cmd.delete id idx m :: rest) :
    stackUndo s = some
      { s with boxes := pyInsert idx id s.boxes,
               store := modObj id
                 (fun b => { b with model := m, editText := m.text,
                                    geom := m.rect_px, visible := true }) s.store,
               undoS := rest,
               redoS := Cmd.delete id idx m :: s.redoS } := by
  simp [stackUndo, h, cmdUndo]

/-! ## C10 -/

/-- C10: a delete request for a box that is not in the Box Collection is a
no-op — no Command is pushed and the whole page-view state (collection,
selection, widget store, both stacks) is unchanged, so repeating the
request is safe. -/
theorem delete_of_nonmember_is_noop (s : PVState) (id : Nat) (h : id ∉ s.boxes) :
    request_delete id s = some s := by
  simp [request_delete, h]

def c10State : PVState :=
  ⟨[(0, defaultObj)], [0], none, 0, 800, 1000, 2, "Arial", 12, 1, [], []⟩

/-- C10, witness: deleting the absent id 5 leaves the concrete state as it
is. -/
theorem delete_of_nonmember_is_noop_witness :
    request_delete 5 c10State = some c10State :=
  delete_of_nonmember_is_noop c10State 5 (by decide)

/-! ## C7 -/

/-- C7: deleting a member box pushes a Delete command recording the box's
index in the collection and its model snapshot; the box leaves the
collection, and undoing reinserts it at exactly that index, so the
collection's order is restored, with the snapshot model back on the
widget. -/
theorem delete_undo_preserves_zorder (s : PVState) (id : Nat)
    (hmem : id ∈ s.boxes) (hnd : s.boxes.Nodup) (hk : hasKey s.store id = true) :
    ∃ s1 s2,
      request_delete id s = some s1 ∧
      s1.undoS = Cmd.delete id (pyIndex id s.boxes) (getObj s.store id).model :: s.undoS ∧
      id ∉ s1.boxes ∧
      stackUndo s1 = some s2 ∧
      s2.boxes = s.boxes ∧
      (getObj s2.store id).model = (getObj s.store id).model := by
  refine ⟨_, _, request_delete_eval s id hmem, rfl, ?_,
    stack_undo_delete_eval _ id _ _ _ rfl, ?_, ?_⟩
  · exact not_mem_pyRemove_self s.boxes id hnd
  · simpa using pyInsert_pyIndex_pyRemove s.boxes id hmem
  · show (getObj (modObj id _ (modObj id _ s.store)) id).model = _
    rw [modObj_modObj, getObj_modObj_self _ _ _ hk]

def c7State : PVState :=
  ⟨[(0, ⟨⟨0, ⟨10, 10, 100, 40⟩, "one", "Arial", 12⟩, "one", ⟨10, 10, 100, 40⟩, true⟩),
    (1, ⟨⟨0, ⟨200, 10, 100, 40⟩, "two", "Arial", 12⟩, "two", ⟨200, 10, 100, 40⟩, true⟩)],
   [0, 1], some 1, 0, 800, 1000, 2, "Arial", 12, 2, [], []⟩

/-- C7, witness: deleting box 0 of a two-box collection and undoing
restores the order `[0, 1]` and box 0's model. -/
theorem delete_undo_preserves_zorder_witness :
    ∃ s1 s2,
      request_delete 0 c7State = some s1 ∧
      s1.undoS = Cmd.delete 0 (pyIndex 0 c7State.boxes) (getObj c7State.store 0).model ::
        c7State.undoS ∧
      0 ∉ s1.boxes ∧
      stackUndo s1 = some s2 ∧
      s2.boxes = c7State.boxes ∧
      (getObj s2.store 0).model = (getObj c7State.store 0).model :=
  delete_undo_preserves_zorder c7State 0 (by decide) (by decide) (by decide)

/-! ## C4 -/

/-- C4: committing a text edit whose trimmed text is empty removes the box
from the collection via a pushed Delete command (not an Update), and one
undo puts the box back — same collection, with the widget carrying its
pre-delete committed text. -/
theorem empty_text_commit_autodeletes (s : PVState) (id : Nat) (t : String)
    (hmem : id ∈ s.boxes) (hnd : s.boxes.Nodup) (hk : hasKey s.store id = true)
    (hempty : pyStrip t = "") :
    ∃ s1 s2,
      retext id t s = some s1 ∧
      id ∉ s1.boxes ∧
      s1.undoS = Cmd.delete id (pyIndex id s.boxes) (getObj s.store id).model :: s.undoS ∧
      stackUndo s1 = some s2 ∧
      id ∈ s2.boxes ∧
      s2.boxes = s.boxes ∧
      (getObj s2.store id).model = (getObj s.store id).model ∧
      (getObj s2.store id).editText = (getObj s.store id).model.text := by
  have hkA : hasKey (modObj id (fun b => { b with editText := t }) s.store) id = true := by
    rw [hasKey_modObj]; exact hk
  have hA : getObj (modObj id (fun b => { b with editText := t }) s.store) id =
      { getObj s.store id with editText := t } := getObj_modObj_self _ _ _ hk
  have hstep : retext id t s =
      request_delete id { s with store := modObj id (fun b => { b with editText := t }) s.store } := by
    simp only [retext, editing_finished, hA]
    rw [if_pos hempty]
  refine ⟨_, _, hstep.trans (request_delete_eval _ id hmem), ?_, ?_,
    stack_undo_delete_eval _ id _ _ _ rfl, ?_, ?_, ?_, ?_⟩
  · exact not_mem_pyRemove_self s.boxes id hnd
  · show Cmd.delete id _ (getObj (modObj id _ s.store) id).model :: s.undoS = _
    rw [hA]
  · show id ∈ pyInsert _ id _
    simp [pyInsert]
  · simpa using pyInsert_pyIndex_pyRemove s.boxes id hmem
  · show (getObj (modObj id _ (modObj id _ (modObj id _ s.store))) id).model = _
    rw [modObj_modObj, modObj_modObj, getObj_modObj_self _ _ _ hk, hA]
  · show (getObj (modObj id _ (modObj id _ (modObj id _ s.store))) id).editText = _
    rw [modObj_modObj, modObj_modObj, getObj_modObj_self _ _ _ hk, hA]

def c4State : PVState :=
  ⟨[(0, ⟨⟨0, ⟨10, 10, 100, 40⟩, "hello", "Arial", 12⟩, "hello", ⟨10, 10, 100, 40⟩, true⟩)],
   [0], some 0, 0, 800, 1000, 2, "Arial", 12, 1, [], []⟩

/-- C4, witness: typing whitespace into the one box and committing deletes
it; undo restores it with its committed text "hello". -/
theorem empty_text_commit_autodeletes_witness :
    ∃ s1 s2,
      retext 0 "   " c4State = some s1 ∧
      0 ∉ s1.boxes ∧
      s1.undoS = Cmd.delete 0 (pyIndex 0 c4State.boxes) (getObj c4State.store 0).model ::
        c4State.undoS ∧
      stackUndo s1 = some s2 ∧
      0 ∈ s2.boxes ∧
      s2.boxes = c4State.boxes ∧
      (getObj s2.store 0).model = (getObj c4State.store 0).model ∧
      (getObj s2.store 0).editText = (getObj c4State.store 0).model.text :=
  empty_text_commit_autodeletes c4State 0 "   " (by decide) (by decide) (by decide) (by decide)

/-! ## C8 -/

def c8State : PVState := ⟨[], [], none, 0, 800, 1000, 2, "Arial", 12, 0, [], []⟩

/-- C8, counterexample: with nothing selected, changing the font is not
free of observable state changes — the page view's current font defaults
move (and with them the font any subsequently created box receives), so
the state differs from the original. -/
theorem restyle_without_selection_changes_defaults :
    set_font_settings "Courier New" 10 c8State ≠ some c8State := by decide

/-- C8, amended: with no selection, no command is pushed and the
collection, selection, widget store and both stacks are untouched — only
the current font defaults change; with a selected box at rest (widget
geometry and edit text in sync with its model), exactly one Change Font
command is pushed and only that box's font family and size fields move. -/
theorem restyle_targets_selection :
    (∀ (s : PVState) (family : String) (fontsize : Int),
        s.selected = none →
        set_font_settings family fontsize s =
          some { s with currentFamily := family, currentFontsize := fontsize }) ∧
    (∀ (s : PVState) (id : Nat) (family : String) (fontsize : Int),
        s.selected = some id →
        (getObj s.store id).geom = (getObj s.store id).model.rect_px →
        (getObj s.store id).editText = (getObj s.store id).model.text →
        set_font_settings family fontsize s =
          some { s with
            currentFamily := family, currentFontsize := fontsize,
            store := modObj id (fun b => { b with
              model := { b.model with family := family, fontsize_pt := fontsize } }) s.store,
            undoS := Cmd.changeFont (getObj s.store id).model
                ⟨(getObj s.store id).model.page_index, (getObj s.store id).model.rect_px,
                 (getObj s.store id).model.text, family, fontsize⟩ :: s.undoS,
            redoS := [] }) := by
  constructor
  · intro s family fontsize h
    simp [set_font_settings, h]
  · intro s id family fontsize hsel hgeom hedit
    simp only [set_font_settings, pushAndDo, cmdDo, setModelSt, hsel]
    refine congrArg some ?_
    refine PVState.mk.injEq .. |>.mpr ?_
    refine ⟨?_, rfl, rfl, rfl, rfl, rfl, rfl, rfl, rfl, rfl, ?_, rfl⟩
    · apply modObj_congr
      simp [hgeom, hedit]
    · simp [hgeom, hedit]

/-! ## C6 -/

/-- C6: the font mapping is a pure function of the family name.  It sends
"Courier New" to the monospace base font, "Times New Roman" to the serif
one and "Arial" to the sans-serif default; it agrees exactly with the
three-bucket substring classification over the keyword sets
{"courier", "consolas", "mono"} (checked first) and {"times", "serif"}
(the extra long keywords in the code each contain "mono" or "serif", so
they add nothing); and it is case-insensitive: families equal after
lowercasing map alike. -/
theorem font_mapping_deterministic :
    (basefont_to_portable (qfont_to_pdf_basefont "Courier New") = some PortableFont.monospace ∧
     basefont_to_portable (qfont_to_pdf_basefont "Times New Roman") = some PortableFont.serif ∧
     basefont_to_portable (qfont_to_pdf_basefont "Arial") = some PortableFont.sansSerif) ∧
    (∀ family : String,
        basefont_to_portable (qfont_to_pdf_basefont family) = some (spec_font_class family)) ∧
    (∀ f g : String, lowerChars f = lowerChars g →
        qfont_to_pdf_basefont f = qfont_to_pdf_basefont g) := by
  refine ⟨⟨by decide, by decide, by decide⟩, ?_, ?_⟩
  · intro family
    have hdm : containsChars "dejavu sans mono".toList (lowerChars family) = true →
        containsChars "mono".toList (lowerChars family) = true :=
      fun h => containsChars_trans (by decide) h
    have hlm : containsChars "liberation mono".toList (lowerChars family) = true →
        containsChars "mono".toList (lowerChars family) = true :=
      fun h => containsChars_trans (by decide) h
    have hds : containsChars "dejavu serif".toList (lowerChars family) = true →
        containsChars "serif".toList (lowerChars family) = true :=
      fun h => containsChars_trans (by decide) h
    have hls : containsChars "liberation serif".toList (lowerChars family) = true →
        containsChars "serif".toList (lowerChars family) = true :=
      fun h => containsChars_trans (by decide) h
    simp only [qfont_to_pdf_basefont, spec_font_class, monoKeywords, serifKeywords,
      List.any_cons, List.any_nil, Bool.or_false]
    rcases h1 : containsChars "courier".toList (lowerChars family) <;>
      rcases h2 : containsChars "consolas".toList (lowerChars family) <;>
        rcases h3 : containsChars "mono".toList (lowerChars family) <;>
          rcases h4 : containsChars "times".toList (lowerChars family) <;>
            rcases h5 : containsChars "serif".toList (lowerChars family) <;>
              simp_all [basefont_to_portable]
  · intro f g h
    simp only [qfont_to_pdf_basefont, h]

/-! ## C5 -/

theorem save_boxes_filter (zoom : ℚ) (store : List (Nat × BoxObj)) (l : List Nat) :
    save_boxes zoom store l =
      ((l.map (getObj store)).filter
        (fun b => !(pyStrip b.editText == ""))).map (mkAnnot zoom) := by
  induction l with
  | nil => rfl
  | cons id rest ih =>
      by_cases h : pyStrip (getObj store id).editText = "" <;>
        simp [save_boxes, h, ih]

/-- C5: saving emits exactly one annotation per box whose trimmed edit text
is non-empty, in collection order, each carrying that box's page index and
transformed rectangle; in particular, over a three-box collection whose
middle box holds only whitespace, exactly the two annotations of boxes #1
and #3 are produced. -/
theorem save_skips_empty_boxes :
    (∀ s : PVState,
        save_pdf s =
          ((s.boxes.map (getObj s.store)).filter
            (fun b => !(pyStrip b.editText == ""))).map (mkAnnot s.zoom)) ∧
    (∀ (s : PVState) (i1 i2 i3 : Nat),
        s.boxes = [i1, i2, i3] →
        pyStrip (getObj s.store i1).editText ≠ "" →
        pyStrip (getObj s.store i2).editText = "" →
        pyStrip (getObj s.store i3).editText ≠ "" →
        save_pdf s = [mkAnnot s.zoom (getObj s.store i1), mkAnnot s.zoom (getObj s.store i3)]) := by
  constructor
  · intro s
    exact save_boxes_filter s.zoom s.store s.boxes
  · intro s i1 i2 i3 hb h1 h2 h3
    simp [save_pdf, hb, save_boxes, h1, h2, h3]

/-! ## C9 -/

theorem style_freetext_plain_base (p : StyleProfile) (family : String) (fontsize : Int)
    (a : StyledAnnot) : (style_freetext_plain p family fontsize a).base = a.base := by
  simp only [style_freetext_plain, pyTry]
  split_ifs <;> rfl

theorem save_boxes_styled_base (prof : Nat → StyleProfile) (zoom : ℚ)
    (store : List (Nat × BoxObj)) (l : List Nat) :
    (save_boxes_styled prof zoom store l).map StyledAnnot.base = save_boxes zoom store l := by
  induction l with
  | nil => rfl
  | cons id rest ih =>
      by_cases h : pyStrip (getObj store id).editText = "" <;>
        simp [save_boxes_styled, save_boxes, h, ih, style_freetext_plain_base]

/-- C9: styling is best-effort — whatever subset of the five style calls
fails on whichever annotation, the save still emits exactly the same
annotations in the same order (no failure aborts the loop or drops a box);
a failing call simply leaves its style unapplied, as the all-fail profile
shows. -/
theorem styling_is_best_effort :
    (∀ (prof : Nat → StyleProfile) (s : PVState),
        (save_pdf_styled prof s).map StyledAnnot.base = save_pdf s) ∧
    (∀ (family : String) (fontsize : Int) (a : StyledAnnot),
        style_freetext_plain ⟨false, false, false, false, false⟩ family fontsize a = a) := by
  constructor
  · intro prof s
    exact save_boxes_styled_base prof s.zoom s.store s.boxes
  · intro family fontsize a
    rfl

/-! ## C2 -/

/-- C2, counterexample: a click-type create at (750, 400) on an 800 × 1000
page commits a box of width 50 — the claimed lower bound of 60 px fails
when the default width is cut down against the right page edge (anything
from 40 px up is committed). -/
theorem click_create_commits_width_below_min :
    create_box_rect 800 1000 ⟨750, 400, 1, 1⟩ true = some ⟨750, 385, 50, 30⟩ ∧
    (50 : Int) < MIN_W := by decide

/-- C2, amended: every committed rectangle stays inside the page
(`0 ≤ x`, `0 ≤ y`, `x + w ≤ W`, `y + h ≤ H`) given a non-empty page, an
in-page click anchor, a box no larger than the page (move), and an in-page
gesture anchor (resize); but the minimum sizes hold only up to the space
left from the anchor: drag-create and resize guarantee
`w ≥ min 60 (W - x)` and `h ≥ min 28 (H - y)`, while click-create commits
height exactly 30 and any width from 40 px up. -/
theorem committed_rect_clamped :
    (∀ (W H : Int) (r : Rect), 1 ≤ W → 1 ≤ H →
        0 ≤ (drag_create_rect W H r).x ∧ 0 ≤ (drag_create_rect W H r).y ∧
        (drag_create_rect W H r).x + (drag_create_rect W H r).w ≤ W ∧
        (drag_create_rect W H r).y + (drag_create_rect W H r).h ≤ H ∧
        min MIN_W (W - (drag_create_rect W H r).x) ≤ (drag_create_rect W H r).w ∧
        min MIN_H (H - (drag_create_rect W H r).y) ≤ (drag_create_rect W H r).h) ∧
    (∀ (W H x y : Int) (r : Rect), 0 ≤ x → default_click_h ≤ H →
        click_create_rect W H x y = some r →
        0 ≤ r.x ∧ 0 ≤ r.y ∧ r.x + r.w ≤ W ∧ r.y + r.h ≤ H ∧
        40 ≤ r.w ∧ r.h = default_click_h) ∧
    (∀ W H bw bh px py : Int, bw ≤ W → bh ≤ H →
        0 ≤ (move_clamp W H bw bh px py).1 ∧ (move_clamp W H bw bh px py).1 + bw ≤ W ∧
        0 ≤ (move_clamp W H bw bh px py).2 ∧ (move_clamp W H bw bh px py).2 + bh ≤ H) ∧
    (∀ W H sx sy sw sh dx dy : Int, 0 ≤ sx → sx ≤ W → 0 ≤ sy → sy ≤ H →
        sx + (resize_clamp W H sx sy sw sh dx dy).1 ≤ W ∧
        sy + (resize_clamp W H sx sy sw sh dx dy).2 ≤ H ∧
        min MIN_W (W - sx) ≤ (resize_clamp W H sx sy sw sh dx dy).1 ∧
        min MIN_H (H - sy) ≤ (resize_clamp W H sx sy sw sh dx dy).2) := by
  refine ⟨?_, ?_, ?_, ?_⟩
  · intro W H r hW hH
    dsimp only [drag_create_rect, Rect.fromPoints, Rect.normalized, Rect.left, Rect.top,
      Rect.right, Rect.bottom, MIN_W, MIN_H]
    split_ifs <;> dsimp only <;> omega
  · intro W H x y r hx hH h
    dsimp only [click_create_rect, default_click_w, default_click_h] at h hH ⊢
    split_ifs at h with hw
    · obtain rfl : _ = r := Option.some.inj h
      refine ⟨hx, ?_, ?_, ?_, ?_, rfl⟩ <;> dsimp only <;> omega
  · intro W H bw bh px py h1 h2
    dsimp only [move_clamp]
    refine ⟨?_, ?_, ?_, ?_⟩ <;> omega
  · intro W H sx sy sw sh dx dy h1 h2 h3 h4
    dsimp only [resize_clamp, MIN_W, MIN_H]
    refine ⟨?_, ?_, ?_, ?_⟩ <;> omega

/-! ## C3 -/

/-- C3, counterexample: the document rectangle of the pixel rectangle
(30, 385, 360, 30) at zoom 2 is not (15, 192.5, 195, 207.5): a `QRect`'s
`right()` is `x + width - 1 = 389`, so the transformed right edge is
194.5, not 195 (and the bottom is 207, not 207.5). -/
theorem click_create_pdf_rect_not_spec_value :
    px_rect_to_pdf_rect 2 ⟨30, 385, 360, 30⟩ ≠ ⟨15, 192.5, 195, 207.5⟩ := by
  intro h
  have hx1 := congrArg PdfRect.x1 h
  simp only [px_rect_to_pdf_rect, Rect.right] at hx1
  norm_num at hx1

/-- C3, amended: a click-type create at pixel (30, 400) on an 800 × 1000
page commits the pixel rectangle (30, 385, 360, 30); dividing its `QRect`
corners (left 30, top 385, right 389, bottom 414) by the zoom factor 2
yields the document rectangle (15, 192.5, 194.5, 207). -/
theorem click_create_scenario :
    create_box_rect 800 1000 (Rect.fromPoints 30 400 30 400) true = some ⟨30, 385, 360, 30⟩ ∧
    px_rect_to_pdf_rect 2 ⟨30, 385, 360, 30⟩ = ⟨15, 385 / 2, 389 / 2, 207⟩ := by
  constructor
  · decide
  · simp only [px_rect_to_pdf_rect, Rect.left, Rect.top, Rect.right, Rect.bottom,
      PdfRect.mk.injEq]
    norm_num

/-! ## C1 -/

def c1Box : BoxObj :=
  ⟨⟨0, ⟨10, 10, 100, 40⟩, "hello", "Arial", 12⟩, "hello", ⟨10, 10, 100, 40⟩, true⟩

/-- One box, selected, on an 800 × 1000 page at zoom 2. -/
def c1Init : PVState :=
  ⟨[(0, c1Box)], [0], some 0, 0, 800, 1000, 2, "Arial", 12, 1, [], []⟩

/-- Restyle the selected box, click-create a second box (which takes the
selection), then undo both commands in reverse order. -/
def c1Run : Option PVState :=
  ((set_font_settings "Times New Roman" 14 c1Init).bind
      (create_box (Rect.fromPoints 30 400 30 400) true)).bind
    (fun s => (stackUndo s).bind stackUndo)

/-- C1: two commands and two undos do not restore the initial state — the
Change Font closures read `self.selected` at execution time, the undo of
Add Box has cleared the selection, so the second undo dereferences `None`
and raises instead of restoring the collection. -/
theorem undo_roundtrip_crashes_after_restyle_then_create :
    c1Run = none ∧ c1Run ≠ some c1Init := by
  constructor <;> decide
